import Mathlib

/-!
Shallow embedding of `examples/wrapper.py` (class `StreamDiffusionWrapper`)
from the StreamDiffusion repository, together with theorems checking the
specification's claims about it.

External libraries (diffusers, torch, PIL, the streamdiffusion package and
its TensorRT tooling) are modelled by an `Env` record of opaque functions
and by symbolic module values; the wrapper's own control flow — option
handling, engine-path construction, the try/except acceleration fallback,
pre/post image conversion — is embedded faithfully, statement by statement.
Python exceptions inside the acceleration `try` block are modelled by an
`Option FailPoint` oracle naming the statement at which an exception is
raised (if any); the partially mutated state at that moment is carried in
the `Except.error` payload, matching Python's in-place mutation semantics.
-/

namespace StreamWrap

/-- Torch device, as used by `.to(device=...)` and `.cpu()`. -/
inductive Dev where
  | cpu
  | cuda
  deriving DecidableEq, Repr, Inhabited

/-- Torch dtype (the wrapper defaults to float16). -/
inductive DT where
  | float16
  | float32
  deriving DecidableEq, Repr, Inhabited

/-- The wrapper's `mode` literal: "img2img" or "txt2img". -/
inductive Mode where
  | img2img
  | txt2img
  deriving DecidableEq, Repr, Inhabited

/-- The wrapper's `acceleration` literal: "none", "xformers", "sfast" or
"tensorrt".  The "none" literal is named `noAcc` here. -/
inductive Accel where
  | noAcc
  | xformers
  | sfast
  | tensorrt
  deriving DecidableEq, Repr, Inhabited

/-- A PIL image: its mode string (e.g. "RGB"), its size, and an opaque
payload standing for the pixel data. -/
structure PILImage where
  mode : String
  width : Nat
  height : Nat
  data : Nat
  deriving DecidableEq, Repr, Inhabited

/-- A torch tensor: an opaque payload plus the device and dtype it lives on. -/
structure Tensor where
  data : Nat
  device : Dev
  dtype : DT
  deriving DecidableEq, Repr, Inhabited

/-- PIL `img.convert(m)`: the result has mode `m`; the payload is kept. -/
def convertImg (m : String) (i : PILImage) : PILImage :=
  { i with mode := m }

/-- PIL `img.resize((w, h))`: the result has the given size. -/
def resizeImg (w h : Nat) (i : PILImage) : PILImage :=
  { i with width := w, height := h }

/-- Torch `t.to(device=d, dtype=dt)`. -/
def tensorTo (t : Tensor) (d : Dev) (dt : DT) : Tensor :=
  { t with device := d, dtype := dt }

/-- Torch `t.cpu()`. -/
def tensorCpu (t : Tensor) : Tensor :=
  { t with device := Dev.cpu }

/-- The `unet` module held by the stream: the torch UNet from the pipeline,
a compiled TensorRT engine loaded from a path, or a `DataParallel` wrapper. -/
inductive UnetMod where
  | torch
  | engine (path : String)
  | dataPar (inner : UnetMod) (ids : List Nat)
  deriving DecidableEq, Repr, Inhabited

/-- Which VAE module the stream holds: the pipeline's default, a tiny VAE
loaded from an id, or a pair of TensorRT engines loaded from paths. -/
inductive VaeKind where
  | sdDefault
  | tiny (vid : String)
  | engine (enc : String) (dec : String)
  deriving DecidableEq, Repr, Inhabited

/-- The stream's `vae` slot.  `fwdPatched` records the temporary
`stream.vae.forward = stream.vae.decode` monkey-patch performed around the
decoder compilation (and removed again by `delattr`). -/
structure VaeMod where
  kind : VaeKind
  fwdPatched : Bool
  deriving DecidableEq, Repr, Inhabited

/-- The observable state of the `StreamDiffusion` object that the wrapper
mutates: which unet/vae modules it holds, whether stable-fast wrapped it,
whether `load_lcm_lora`/`fuse_lora` ran (and with which id argument),
whether `prepare` ran, and whether the similar-image filter was enabled. -/
structure Stream where
  unet : UnetMod
  vae : VaeMod
  sfastOn : Bool
  loraLoaded : Option (Option String)
  loraFused : Bool
  prepared : Bool
  simFilter : Bool
  deriving DecidableEq, Repr, Inhabited

/-- The constructor arguments of `StreamDiffusionWrapper.__init__` that the
embedded code reads. -/
structure Config where
  model_id : String
  t_index_list : List Nat
  mode : Mode
  lcm_lora_id : Option String
  vae_id : Option String
  device : Dev
  dtype : DT
  frame_buffer_size : Nat
  width : Nat
  height : Nat
  warmup : Nat
  acceleration : Accel
  is_drawing : Bool
  device_ids : Option (List Nat)
  use_lcm_lora : Bool
  use_tiny_vae : Bool
  enable_similar_image_filter : Bool
  deriving DecidableEq, Repr, Inhabited

/-- `self.batch_size = len(t_index_list) * frame_buffer_size`. -/
def Config.batchSize (c : Config) : Nat :=
  c.t_index_list.length * c.frame_buffer_size

/-- The opaque external world: the filesystem `os.path.exists` oracle,
`Image.open`, the stream's image processor, the stream's call operator
(returning `(image_tensor, skip_prob)`), `txt2img`/`txt2img_batch`, and the
library-level `postprocess_image` (which returns a list of PIL images). -/
structure Env where
  fs : String → Bool
  openImage : String → PILImage
  processorPre : PILImage → Nat → Nat → Tensor
  streamRun : Option Tensor → Tensor × Nat
  txtFn : Tensor
  txtBatchFn : Nat → Tensor
  postproc : Tensor → List PILImage

/-- Events emitted by `_load_model`, in execution order: pipeline build,
LoRA load/fuse, tiny-VAE swap, the acceleration steps (with their printed
messages), and the final `stream.prepare` call. -/
inductive Ev where
  | buildPipe (fromSingleFile : Bool)
  | loadLora (id : Option String)
  | fuseLora
  | swapTinyVae (vid : String)
  | xformersOn
  | mkdirs (dir : String)
  | compUnet (path : String)
  | compVaeDec (path : String)
  | compVaeEnc (path : String)
  | printTrtOn
  | printSfastOn
  | printExc
  | printFallback
  | prepareCall
  deriving DecidableEq, Repr

/-- Does `pat` occur at the head of `s`? (helper for Python's `in`). -/
def strLeads : List Char → List Char → Bool
  | [], _ => true
  | _ :: _, [] => false
  | a :: pr, b :: sr => a = b && strLeads pr sr

/-- Python's substring test `pat in s`, on the character lists. -/
def occursIn (pat : List Char) : List Char → Bool
  | [] => strLeads pat []
  | b :: rest => strLeads pat (b :: rest) || occursIn pat rest

/-- Python's `f"...{b}..."` rendering of a bool. -/
def pyBool (b : Bool) : String :=
  if b then ("True") else ("False")

/-- Python's rendering of the mode literal. -/
def modeStr : Mode → String
  | Mode.img2img => ("img2img")
  | Mode.txt2img => ("txt2img")

/-- The inner `create_prefix` closure of `_load_model`: note that the
`lcm_lora-` label is followed by the `use_tiny_vae` flag and the
`tiny_vae-` label by the `use_lcm_lora` flag, exactly as in the source. -/
def createPre (model_id : String) (use_tiny_vae use_lcm_lora : Bool)
    (mode : Mode) (max_batch_size min_batch_size : Nat) : String :=
  model_id ++ ("--lcm_lora-") ++ pyBool use_tiny_vae ++ ("--tiny_vae-") ++
    pyBool use_lcm_lora ++ ("--max_batch-") ++ toString max_batch_size ++
    ("--min_batch-") ++ toString min_batch_size ++ ("--mode-") ++ modeStr mode

/-- `engine_dir = os.path.join("engines")`. -/
def engineDir : String := ("engines")

/-- The batch size used for the VAE engines: `self.batch_size` in txt2img
mode and `1` in img2img mode. -/
def vaeBatch (c : Config) : Nat :=
  if c.mode = Mode.txt2img then c.batchSize else 1

/-- Directory part of the unet engine path. -/
def unetDir (c : Config) : String :=
  engineDir ++ ("/") ++
    createPre c.model_id c.use_tiny_vae c.use_lcm_lora c.mode c.batchSize c.batchSize

/-- `unet_path`. -/
def unetPath (c : Config) : String :=
  unetDir c ++ ("/unet.engine")

/-- Directory part of the two VAE engine paths. -/
def vaeDir (c : Config) : String :=
  engineDir ++ ("/") ++
    createPre c.model_id c.use_tiny_vae c.use_lcm_lora c.mode (vaeBatch c) (vaeBatch c)

/-- `vae_encoder_path`. -/
def vaeEncPath (c : Config) : String :=
  vaeDir c ++ ("/vae_encoder.engine")

/-- `vae_decoder_path`. -/
def vaeDecPath (c : Config) : String :=
  vaeDir c ++ ("/vae_decoder.engine")

/-- Statements inside the acceleration `try` block at which the exception
oracle may fire. -/
inductive FailPoint where
  | fpXformers
  | fpCompUnet
  | fpCompVaeDec
  | fpCompVaeEnc
  | fpCudaStream
  | fpUnetEngine
  | fpVaeEngine
  | fpSfast
  deriving DecidableEq, Repr

/-- The stream as freshly built by `StreamDiffusion(pipe=..., ...)`:
torch unet, the pipeline's default VAE, nothing fused or prepared. -/
def initStream : Stream :=
  { unet := UnetMod.torch
    vae := { kind := VaeKind.sdDefault, fwdPatched := false }
    sfastOn := false
    loraLoaded := none
    loraFused := false
    prepared := false
    simFilter := false }

/-- `if "turbo" not in model_id: if use_lcm_lora: load (with the given id
or the default) and fuse`. -/
def loraStage (c : Config) (s : Stream) : Stream × List Ev :=
  if occursIn (("turbo").data) c.model_id.data then (s, [])
  else if c.use_lcm_lora then
    ({ s with loraLoaded := some c.lcm_lora_id, loraFused := true },
      [Ev.loadLora c.lcm_lora_id, Ev.fuseLora])
  else (s, [])

/-- `if use_tiny_vae: stream.vae = AutoencoderTiny.from_pretrained(vae_id
or "madebyollin/taesd")`. -/
def vaeStage (c : Config) (s : Stream) : Stream × List Ev :=
  if c.use_tiny_vae then
    match c.vae_id with
    | some vid =>
        ({ s with vae := { kind := VaeKind.tiny vid, fwdPatched := s.vae.fwdPatched } },
          [Ev.swapTinyVae vid])
    | none =>
        ({ s with vae := { kind := VaeKind.tiny ("madebyollin/taesd"), fwdPatched := s.vae.fwdPatched } },
          [Ev.swapTinyVae ("madebyollin/taesd")])
  else (s, [])

/-- The unet compilation step: skipped when `unet_path` exists; otherwise
`os.makedirs(dirname, exist_ok=True)` then `compile_unet`.  An error
carries the state and events at the moment the exception fires. -/
def trtUnetStep (c : Config) (env : Env) (fail : Option FailPoint) (s : Stream) :
    Except (Stream × List Ev) (Stream × List Ev) :=
  if env.fs (unetPath c) then Except.ok (s, [])
  else if fail = some FailPoint.fpCompUnet then
    Except.error (s, [Ev.mkdirs (unetDir c)])
  else Except.ok (s, [Ev.mkdirs (unetDir c), Ev.compUnet (unetPath c)])

/-- The VAE-decoder compilation step: skipped when `vae_decoder_path`
exists; otherwise mkdir, monkey-patch `stream.vae.forward = stream.vae.decode`,
compile, and `delattr` the patch again.  A failure during compilation
leaves the patch in place. -/
def trtVaeDecStep (c : Config) (env : Env) (fail : Option FailPoint) (s : Stream) :
    Except (Stream × List Ev) (Stream × List Ev) :=
  if env.fs (vaeDecPath c) then Except.ok (s, [])
  else
    if fail = some FailPoint.fpCompVaeDec then
      Except.error ({ s with vae := { kind := s.vae.kind, fwdPatched := true } },
        [Ev.mkdirs (vaeDir c)])
    else Except.ok ({ s with vae := { kind := s.vae.kind, fwdPatched := false } },
      [Ev.mkdirs (vaeDir c), Ev.compVaeDec (vaeDecPath c)])

/-- The VAE-encoder compilation step. -/
def trtVaeEncStep (c : Config) (env : Env) (fail : Option FailPoint) (s : Stream) :
    Except (Stream × List Ev) (Stream × List Ev) :=
  if env.fs (vaeEncPath c) then Except.ok (s, [])
  else if fail = some FailPoint.fpCompVaeEnc then
    Except.error (s, [Ev.mkdirs (vaeDir c)])
  else Except.ok (s, [Ev.mkdirs (vaeDir c), Ev.compVaeEnc (vaeEncPath c)])

/-- The tail of the TensorRT branch after the compilations:
`cuda.Stream()`, the unet engine swap (`stream.unet = ...`), and the VAE
engine swap.  Crucially the unet swap happens before the VAE engine
constructor runs, so a failure there (`fpVaeEngine`) leaves `stream.unet`
already replaced.  The `setattr` of the saved `config` and `dtype` onto
the new VAE engine is not tracked. -/
def trtSwap (c : Config) (fail : Option FailPoint) (s : Stream) (evs : List Ev) :
    Except (Stream × List Ev) (Stream × List Ev) :=
  if fail = some FailPoint.fpCudaStream then Except.error (s, evs)
  else if fail = some FailPoint.fpUnetEngine then Except.error (s, evs)
  else if fail = some FailPoint.fpVaeEngine then
    Except.error ({ s with unet := UnetMod.engine (unetPath c) }, evs)
  else Except.ok
    ({ s with unet := UnetMod.engine (unetPath c),
              vae := { kind := VaeKind.engine (vaeEncPath c) (vaeDecPath c),
                       fwdPatched := s.vae.fwdPatched } },
      evs ++ [Ev.printTrtOn])

/-- The whole TensorRT branch: the three conditional compilations, then
the engine swaps. -/
def accelTrt (c : Config) (env : Env) (fail : Option FailPoint) (s : Stream) :
    Except (Stream × List Ev) (Stream × List Ev) :=
  match trtUnetStep c env fail s with
  | Except.error r => Except.error r
  | Except.ok (s1, e1) =>
    match trtVaeDecStep c env fail s1 with
    | Except.error (s2, e2) => Except.error (s2, e1 ++ e2)
    | Except.ok (s2, e2) =>
      match trtVaeEncStep c env fail s2 with
      | Except.error (s3, e3) => Except.error (s3, e1 ++ e2 ++ e3)
      | Except.ok (s3, e3) => trtSwap c fail s3 (e1 ++ e2 ++ e3)

/-- The body of the `try` block: dispatch on the acceleration literal. -/
def accelTry (c : Config) (env : Env) (fail : Option FailPoint) (s : Stream) :
    Except (Stream × List Ev) (Stream × List Ev) :=
  if c.acceleration = Accel.xformers then
    if fail = some FailPoint.fpXformers then Except.error (s, [])
    else Except.ok (s, [Ev.xformersOn])
  else if c.acceleration = Accel.tensorrt then
    accelTrt c env fail s
  else if c.acceleration = Accel.sfast then
    if fail = some FailPoint.fpSfast then Except.error (s, [])
    else Except.ok ({ s with sfastOn := true }, [Ev.printSfastOn])
  else Except.ok (s, [])

/-- `try: ... except Exception: traceback.print_exc(); print(fallback)`. -/
def accelBlock (c : Config) (env : Env) (fail : Option FailPoint) (s : Stream) :
    Stream × List Ev :=
  match accelTry c env fail s with
  | Except.ok (s1, evs) => (s1, evs)
  | Except.error (s1, evs) => (s1, evs ++ [Ev.printExc, Ev.printFallback])

/-- `_load_model`: build the pipeline, the LoRA stage, the tiny-VAE stage,
the guarded acceleration block, then `stream.prepare(...)`, and return the
stream.  The returned event list is the execution trace. -/
def loadModel (c : Config) (env : Env) (fail : Option FailPoint) :
    Stream × List Ev :=
  let s0 := initStream
  let r1 := loraStage c s0
  let r2 := vaeStage c r1.1
  let r3 := accelBlock c env fail r2.1
  ({ r3.1 with prepared := true },
    Ev.buildPipe (c.model_id.endsWith (".safetensors")) ::
      (r1.2 ++ r2.2 ++ r3.2 ++ [Ev.prepareCall]))

/-- The stream state just before the `try` block is entered. -/
def preAccel (c : Config) : Stream :=
  (vaeStage c (loraStage c initStream).1).1

/-- The wrapper object: the fields `__init__` stores on `self`. -/
structure Wrapper where
  device : Dev
  dtype : DT
  width : Nat
  height : Nat
  mode : Mode
  frame_buffer_size : Nat
  batch_size : Nat
  stream : Stream
  deriving DecidableEq, Repr

/-- `StreamDiffusionWrapper.__init__`: store the config fields, set
`batch_size = len(t_index_list) * frame_buffer_size`, load the model,
optionally wrap the unet in `DataParallel`, optionally enable the
similar-image filter. -/
def mkWrapper (c : Config) (env : Env) (fail : Option FailPoint) :
    Wrapper × List Ev :=
  let r := loadModel c env fail
  let st1 :=
    match c.device_ids with
    | some ids => { r.1 with unet := UnetMod.dataPar r.1.unet ids }
    | none => r.1
  let st2 := if c.enable_similar_image_filter then { st1 with simFilter := true } else st1
  ({ device := c.device
     dtype := c.dtype
     width := c.width
     height := c.height
     mode := c.mode
     frame_buffer_size := c.frame_buffer_size
     batch_size := c.t_index_list.length * c.frame_buffer_size
     stream := st2 },
    r.2)

/-- A Python value returned by the call interface: a single PIL image, a
list of PIL images, or a tuple of such a value with the `skip_prob`. -/
inductive PyVal where
  | img (i : PILImage)
  | imgList (l : List PILImage)
  | tup (a : PyVal) (skip : Nat)
  deriving DecidableEq, Repr

/-- The argument positions `preprocess_image` accepts: a path string or a
PIL image. -/
inductive StrOrImg where
  | path (s : String)
  | pil (p : PILImage)
  deriving DecidableEq, Repr

/-- The argument `__call__`/`img2img` accept: a path, a PIL image, or a
tensor (`None` is the `Option.none` of the surrounding `Option`). -/
inductive ImgInput where
  | path (s : String)
  | pil (p : PILImage)
  | tensor (t : Tensor)
  deriving DecidableEq, Repr

/-- Events emitted by the wrapper's inference methods. -/
inductive WEv where
  | streamRun (arg : Option Tensor)
  | txtSingle
  | txtBatch (n : Nat)
  | prepareReq (prompt : String) (steps : Nat)
  deriving DecidableEq, Repr

/-- `preprocess_image`: a path is opened, converted to RGB and resized;
then — because the result of the first branch is itself a PIL image — the
second `isinstance` branch converts and resizes once more (a PIL argument
goes through it once); finally the stream's image processor runs and the
tensor is moved to `self.device` with `self.dtype`. -/
def preprocessImage (w : Wrapper) (env : Env) (i : StrOrImg) : Tensor :=
  let img :=
    match i with
    | StrOrImg.path s => resizeImg w.width w.height (convertImg (("RGB")) (env.openImage s))
    | StrOrImg.pil p => p
  let img2 := resizeImg w.width w.height (convertImg (("RGB")) img)
  tensorTo (env.processorPre img2 w.height w.width) w.device w.dtype

/-- `postprocess_image` (the wrapper method): a list of PIL images when
`frame_buffer_size > 1`, otherwise element `[0]` of that list. -/
def postprocImg (w : Wrapper) (env : Env) (t : Tensor) : PyVal :=
  if w.frame_buffer_size > 1 then PyVal.imgList (env.postproc (tensorCpu t))
  else PyVal.img ((env.postproc (tensorCpu t)).headI)

/-- `img2img`: preprocess path/PIL arguments, pass tensors (and `None`)
through unchanged, run the stream, and return the tuple
`(postprocess_image(image_tensor), skip_prob)`.  The middle component is
the wrapper after the call; the last is the event trace. -/
def wImg2img (w : Wrapper) (env : Env) (i : Option ImgInput) :
    PyVal × Wrapper × List WEv :=
  let arg : Option Tensor :=
    match i with
    | some (ImgInput.path s) => some (preprocessImage w env (StrOrImg.path s))
    | some (ImgInput.pil p) => some (preprocessImage w env (StrOrImg.pil p))
    | some (ImgInput.tensor t) => some t
    | none => none
  let r := env.streamRun arg
  (PyVal.tup (postprocImg w env r.1) r.2, w, [WEv.streamRun arg])

/-- `txt2img`: `txt2img_batch(self.batch_size)` when
`frame_buffer_size > 1`, else the plain `txt2img()`, then postprocess. -/
def wTxt2img (w : Wrapper) (env : Env) : PyVal × Wrapper × List WEv :=
  if w.frame_buffer_size > 1 then
    (postprocImg w env (env.txtBatchFn w.batch_size), w, [WEv.txtBatch w.batch_size])
  else (postprocImg w env env.txtFn, w, [WEv.txtSingle])

/-- `__call__`: dispatch on the mode. -/
def wCall (w : Wrapper) (env : Env) (i : Option ImgInput) :
    PyVal × Wrapper × List WEv :=
  if w.mode = Mode.img2img then wImg2img w env i
  else wTxt2img w env

/-- The wrapper's `prepare` method, forwarding to `stream.prepare`. -/
def wPrepare (w : Wrapper) (prompt : String) (steps : Nat) :
    Wrapper × List WEv :=
  ({ w with stream := { w.stream with prepared := true } },
    [WEv.prepareReq prompt steps])

/-- The stream carried by either outcome of the `try` body (on error it is
the partially mutated state at the moment the exception fired). -/
def resStream : Except (Stream × List Ev) (Stream × List Ev) → Stream
  | Except.ok (s, _) => s
  | Except.error (s, _) => s

/-- The events emitted by either outcome of the `try` body. -/
def resEvs : Except (Stream × List Ev) (Stream × List Ev) → List Ev
  | Except.ok (_, e) => e
  | Except.error (_, e) => e

/-- Events that can only originate from the acceleration block. -/
def isAccelEv : Ev → Bool
  | Ev.xformersOn => true
  | Ev.mkdirs _ => true
  | Ev.compUnet _ => true
  | Ev.compVaeDec _ => true
  | Ev.compVaeEnc _ => true
  | Ev.printTrtOn => true
  | Ev.printSfastOn => true
  | Ev.printExc => true
  | Ev.printFallback => true
  | _ => false

/-- A concrete PIL image used by the closed evaluation theorems. -/
def pilW : PILImage :=
  { mode := ("RGB"), width := 512, height := 512, data := 0 }

/-- A concrete tensor used by the closed evaluation theorems. -/
def tW : Tensor :=
  { data := 7, device := Dev.cuda, dtype := DT.float16 }

/-- A concrete environment: nothing on disk, inference returns fixed
values, `postprocess_image` returns a one-element list. -/
def envW : Env :=
  { fs := fun _ => false
    openImage := fun _ => pilW
    processorPre := fun _ _ _ => tW
    streamRun := fun _ => (tW, 0)
    txtFn := tW
    txtBatchFn := fun _ => tW
    postproc := fun _ => [pilW] }

/-- A concrete base configuration (img2img, no acceleration). -/
def cfgBase : Config :=
  { model_id := ("m")
    t_index_list := [0, 16, 32]
    mode := Mode.img2img
    lcm_lora_id := none
    vae_id := none
    device := Dev.cuda
    dtype := DT.float16
    frame_buffer_size := 1
    width := 512
    height := 512
    warmup := 10
    acceleration := Accel.noAcc
    is_drawing := true
    device_ids := none
    use_lcm_lora := true
    use_tiny_vae := true
    enable_similar_image_filter := false }

/-- The base configuration with TensorRT acceleration. -/
def cfgTrt : Config :=
  { cfgBase with acceleration := Accel.tensorrt }

/-- The base configuration with stable-fast acceleration. -/
def cfgSfast : Config :=
  { cfgBase with acceleration := Accel.sfast }

/-- The base configuration with a "turbo" model id and an explicit
LCM-LoRA id. -/
def cfgTurbo : Config :=
  { cfgBase with model_id := ("sd-turbo"), lcm_lora_id := some (("lora-id")) }

/-- The base configuration with a frame buffer of two frames, in txt2img
mode. -/
def cfgFb2 : Config :=
  { cfgBase with frame_buffer_size := 2, mode := Mode.txt2img }

/-- Unfolding `loadModel` into its four stages. -/
theorem loadModel_eq (c : Config) (env : Env) (fail : Option FailPoint) :
    loadModel c env fail =
      ({ (accelBlock c env fail (preAccel c)).1 with prepared := true },
        Ev.buildPipe (c.model_id.endsWith (".safetensors")) ::
          ((loraStage c initStream).2 ++ (vaeStage c (loraStage c initStream).1).2 ++
            (accelBlock c env fail (preAccel c)).2 ++ [Ev.prepareCall])) := rfl

/-- The LoRA stage emits either nothing or exactly a load followed by a
fuse. -/
theorem loraStage_evs (c : Config) (s : Stream) :
    (loraStage c s).2 = [] ∨
    (loraStage c s).2 = [Ev.loadLora c.lcm_lora_id, Ev.fuseLora] := by
  unfold loraStage
  split
  · exact Or.inl rfl
  · split
    · exact Or.inr rfl
    · exact Or.inl rfl

/-- The tiny-VAE stage emits either nothing or exactly one swap event. -/
theorem vaeStage_evs (c : Config) (s : Stream) :
    (vaeStage c s).2 = [] ∨ ∃ v, (vaeStage c s).2 = [Ev.swapTinyVae v] := by
  unfold vaeStage
  split
  · cases c.vae_id
    · exact Or.inr ⟨_, rfl⟩
    · exact Or.inr ⟨_, rfl⟩
  · exact Or.inl rfl

/-- The LoRA stage leaves every field except the two LoRA flags alone. -/
theorem loraStage_frame (c : Config) (s : Stream) :
    (loraStage c s).1.unet = s.unet ∧ (loraStage c s).1.vae = s.vae ∧
    (loraStage c s).1.sfastOn = s.sfastOn ∧ (loraStage c s).1.prepared = s.prepared ∧
    (loraStage c s).1.simFilter = s.simFilter := by
  unfold loraStage
  split
  · exact ⟨rfl, rfl, rfl, rfl, rfl⟩
  · split
    · exact ⟨rfl, rfl, rfl, rfl, rfl⟩
    · exact ⟨rfl, rfl, rfl, rfl, rfl⟩

/-- The tiny-VAE stage leaves every field except the VAE module alone, and
keeps the `fwdPatched` bit. -/
theorem vaeStage_frame (c : Config) (s : Stream) :
    (vaeStage c s).1.unet = s.unet ∧ (vaeStage c s).1.loraFused = s.loraFused ∧
    (vaeStage c s).1.loraLoaded = s.loraLoaded ∧ (vaeStage c s).1.sfastOn = s.sfastOn ∧
    (vaeStage c s).1.prepared = s.prepared ∧ (vaeStage c s).1.simFilter = s.simFilter ∧
    (vaeStage c s).1.vae.fwdPatched = s.vae.fwdPatched := by
  unfold vaeStage
  split
  · cases c.vae_id
    · exact ⟨rfl, rfl, rfl, rfl, rfl, rfl, rfl⟩
    · exact ⟨rfl, rfl, rfl, rfl, rfl, rfl, rfl⟩
  · exact ⟨rfl, rfl, rfl, rfl, rfl, rfl, rfl⟩

/-- Inversion of the unet compilation step: it never mutates the stream,
and it errors exactly at its own fail point (with the directory already
created). -/
theorem trtUnetStep_error_inv (c : Config) (env : Env) (fail : Option FailPoint)
    (s s' : Stream) (e' : List Ev)
    (h : trtUnetStep c env fail s = Except.error (s', e')) :
    s' = s ∧ fail = some FailPoint.fpCompUnet ∧ env.fs (unetPath c) = false := by
  unfold trtUnetStep at h
  split at h
  · exact absurd h (by simp)
  · split at h
    · next hfs hf =>
      cases h
      exact ⟨rfl, hf, by simpa using hfs⟩
    · exact absurd h (by simp)

/-- Inversion of the unet compilation step, success case. -/
theorem trtUnetStep_ok_inv (c : Config) (env : Env) (fail : Option FailPoint)
    (s s' : Stream) (e' : List Ev)
    (h : trtUnetStep c env fail s = Except.ok (s', e')) :
    s' = s := by
  unfold trtUnetStep at h
  split at h
  · cases h; rfl
  · split at h
    · exact absurd h (by simp)
    · cases h; rfl

/-- Inversion of the decoder compilation step, error case: the exception
fires at its own fail point, after the `forward` monkey-patch. -/
theorem trtVaeDecStep_error_inv (c : Config) (env : Env) (fail : Option FailPoint)
    (s s' : Stream) (e' : List Ev)
    (h : trtVaeDecStep c env fail s = Except.error (s', e')) :
    s' = { s with vae := { kind := s.vae.kind, fwdPatched := true } } ∧
    fail = some FailPoint.fpCompVaeDec := by
  unfold trtVaeDecStep at h
  split at h
  · exact absurd h (by simp)
  · split at h
    · next hf =>
      cases h
      exact ⟨rfl, hf⟩
    · exact absurd h (by simp)

/-- Inversion of the decoder compilation step, success case: only the
`fwdPatched` bit can change. -/
theorem trtVaeDecStep_ok_inv (c : Config) (env : Env) (fail : Option FailPoint)
    (s s' : Stream) (e' : List Ev)
    (h : trtVaeDecStep c env fail s = Except.ok (s', e')) :
    s'.unet = s.unet ∧ s'.vae.kind = s.vae.kind ∧ s'.sfastOn = s.sfastOn ∧
    s'.loraLoaded = s.loraLoaded ∧ s'.loraFused = s.loraFused ∧
    s'.prepared = s.prepared ∧ s'.simFilter = s.simFilter := by
  unfold trtVaeDecStep at h
  split at h
  · cases h
    exact ⟨rfl, rfl, rfl, rfl, rfl, rfl, rfl⟩
  · split at h
    · exact absurd h (by simp)
    · cases h
      exact ⟨rfl, rfl, rfl, rfl, rfl, rfl, rfl⟩

/-- Inversion of the encoder compilation step, error case. -/
theorem trtVaeEncStep_error_inv (c : Config) (env : Env) (fail : Option FailPoint)
    (s s' : Stream) (e' : List Ev)
    (h : trtVaeEncStep c env fail s = Except.error (s', e')) :
    s' = s ∧ fail = some FailPoint.fpCompVaeEnc := by
  unfold trtVaeEncStep at h
  split at h
  · exact absurd h (by simp)
  · split at h
    · next hf =>
      cases h
      exact ⟨rfl, hf⟩
    · exact absurd h (by simp)

/-- Inversion of the encoder compilation step, success case. -/
theorem trtVaeEncStep_ok_inv (c : Config) (env : Env) (fail : Option FailPoint)
    (s s' : Stream) (e' : List Ev)
    (h : trtVaeEncStep c env fail s = Except.ok (s', e')) :
    s' = s := by
  unfold trtVaeEncStep at h
  split at h
  · cases h; rfl
  · split at h
    · exact absurd h (by simp)
    · cases h; rfl

/-- Inversion of the engine-swap tail, error case: the VAE module is
untouched; the unet module is touched exactly when the exception fired in
the VAE engine constructor (after the unet swap). -/
theorem trtSwap_error_inv (c : Config) (fail : Option FailPoint) (s : Stream)
    (evs : List Ev) (s' : Stream) (e' : List Ev)
    (h : trtSwap c fail s evs = Except.error (s', e')) :
    s'.vae = s.vae ∧ s'.loraFused = s.loraFused ∧ s'.loraLoaded = s.loraLoaded ∧
    s'.prepared = s.prepared ∧ s'.simFilter = s.simFilter ∧ s'.sfastOn = s.sfastOn ∧
    e' = evs ∧
    (fail = some FailPoint.fpVaeEngine → s'.unet = UnetMod.engine (unetPath c)) ∧
    (fail ≠ some FailPoint.fpVaeEngine → s'.unet = s.unet) := by
  unfold trtSwap at h
  split at h
  next hfc =>
    cases h
    refine ⟨rfl, rfl, rfl, rfl, rfl, rfl, rfl, ?_, fun _ => rfl⟩
    intro hv
    rw [hfc] at hv
    simp at hv
  next hfc =>
    split at h
    next hfu =>
      cases h
      refine ⟨rfl, rfl, rfl, rfl, rfl, rfl, rfl, ?_, fun _ => rfl⟩
      intro hv
      rw [hfu] at hv
      simp at hv
    next hfu =>
      split at h
      next hfv =>
        cases h
        exact ⟨rfl, rfl, rfl, rfl, rfl, rfl, rfl, fun _ => rfl,
          fun hc => absurd hfv hc⟩
      next hfv =>
        exact absurd h (by simp)

/-- Inversion of the engine-swap tail, success case. -/
theorem trtSwap_ok_inv (c : Config) (fail : Option FailPoint) (s : Stream)
    (evs : List Ev) (s' : Stream) (e' : List Ev)
    (h : trtSwap c fail s evs = Except.ok (s', e')) :
    s' = { s with unet := UnetMod.engine (unetPath c),
                  vae := { kind := VaeKind.engine (vaeEncPath c) (vaeDecPath c),
                           fwdPatched := s.vae.fwdPatched } } ∧
    e' = evs ++ [Ev.printTrtOn] := by
  unfold trtSwap at h
  split at h
  · exact absurd h (by simp)
  split at h
  · exact absurd h (by simp)
  split at h
  · exact absurd h (by simp)
  cases h
  exact ⟨rfl, rfl⟩

/-- Inversion of the TensorRT branch, error case: an exception anywhere in
the branch leaves the VAE module (its kind) and all bookkeeping flags
untouched; the unet module is untouched unless the exception fired inside
the VAE engine constructor, which runs after the unet engine swap. -/
theorem accelTrt_error_inv (c : Config) (env : Env) (fail : Option FailPoint)
    (s s' : Stream) (e' : List Ev)
    (h : accelTrt c env fail s = Except.error (s', e')) :
    s'.vae.kind = s.vae.kind ∧ s'.loraFused = s.loraFused ∧
    s'.loraLoaded = s.loraLoaded ∧ s'.prepared = s.prepared ∧
    s'.simFilter = s.simFilter ∧ s'.sfastOn = s.sfastOn ∧
    (fail = some FailPoint.fpVaeEngine → s'.unet = UnetMod.engine (unetPath c)) ∧
    (fail ≠ some FailPoint.fpVaeEngine → s'.unet = s.unet) := by
  rcases hu : trtUnetStep c env fail s with ⟨s1, e1⟩ | ⟨s1, e1⟩
  · have hacc : accelTrt c env fail s = Except.error (s1, e1) := by
      unfold accelTrt; simp only [hu]
    rw [hacc] at h
    cases h
    obtain ⟨hs, hf, _⟩ := trtUnetStep_error_inv c env fail s _ _ hu
    rw [hs]
    refine ⟨rfl, rfl, rfl, rfl, rfl, rfl, ?_, fun _ => rfl⟩
    intro hv
    rw [hf] at hv
    simp at hv
  · have hs1 : s1 = s := trtUnetStep_ok_inv c env fail s _ _ hu
    rcases hd : trtVaeDecStep c env fail s1 with ⟨s2, e2⟩ | ⟨s2, e2⟩
    · have hacc : accelTrt c env fail s = Except.error (s2, e1 ++ e2) := by
        unfold accelTrt; simp only [hu, hd]
      rw [hacc] at h
      cases h
      obtain ⟨hs2, hf⟩ := trtVaeDecStep_error_inv c env fail s1 _ _ hd
      rw [hs2, hs1]
      refine ⟨rfl, rfl, rfl, rfl, rfl, rfl, ?_, fun _ => rfl⟩
      intro hv
      rw [hf] at hv
      simp at hv
    · obtain ⟨hu2, hk2, hsf2, hl2, hfu2, hp2, hsim2⟩ :=
        trtVaeDecStep_ok_inv c env fail s1 _ _ hd
      rcases he : trtVaeEncStep c env fail s2 with ⟨s3, e3⟩ | ⟨s3, e3⟩
      · have hacc : accelTrt c env fail s = Except.error (s3, e1 ++ e2 ++ e3) := by
          unfold accelTrt; simp only [hu, hd, he]
        rw [hacc] at h
        cases h
        obtain ⟨hs3, hf⟩ := trtVaeEncStep_error_inv c env fail s2 _ _ he
        rw [hs3]
        rw [hs1] at hk2 hfu2 hl2 hp2 hsim2 hsf2 hu2
        refine ⟨hk2, hfu2, hl2, hp2, hsim2, hsf2, ?_, fun _ => hu2⟩
        intro hv
        rw [hf] at hv
        simp at hv
      · have hs3 : s3 = s2 := trtVaeEncStep_ok_inv c env fail s2 _ _ he
        have hacc : accelTrt c env fail s = trtSwap c fail s3 (e1 ++ e2 ++ e3) := by
          unfold accelTrt; simp only [hu, hd, he]
        rw [hacc] at h
        obtain ⟨hv, hfu', hl', hp', hsim', hsf', _, himp1, himp2⟩ :=
          trtSwap_error_inv c fail s3 _ _ _ h
        rw [hs3] at hv hfu' hl' hp' hsim' hsf' himp2
        rw [hs1] at hk2 hfu2 hl2 hp2 hsim2 hsf2 hu2
        refine ⟨by rw [hv, hk2], by rw [hfu', hfu2], by rw [hl', hl2],
          by rw [hp', hp2], by rw [hsim', hsim2], by rw [hsf', hsf2],
          himp1, fun hc => by rw [himp2 hc, hu2]⟩

/-- Inversion of the TensorRT branch, success case: both modules end up as
engines loaded from the computed paths; the flags are untouched. -/
theorem accelTrt_ok_inv (c : Config) (env : Env) (fail : Option FailPoint)
    (s s' : Stream) (e' : List Ev)
    (h : accelTrt c env fail s = Except.ok (s', e')) :
    s'.loraFused = s.loraFused ∧ s'.loraLoaded = s.loraLoaded ∧
    s'.prepared = s.prepared ∧ s'.simFilter = s.simFilter ∧
    s'.sfastOn = s.sfastOn ∧
    s'.unet = UnetMod.engine (unetPath c) ∧
    s'.vae.kind = VaeKind.engine (vaeEncPath c) (vaeDecPath c) := by
  rcases hu : trtUnetStep c env fail s with ⟨s1, e1⟩ | ⟨s1, e1⟩
  · have hacc : accelTrt c env fail s = Except.error (s1, e1) := by
      unfold accelTrt; simp only [hu]
    rw [hacc] at h
    exact absurd h (by simp)
  · have hs1 : s1 = s := trtUnetStep_ok_inv c env fail s _ _ hu
    rcases hd : trtVaeDecStep c env fail s1 with ⟨s2, e2⟩ | ⟨s2, e2⟩
    · have hacc : accelTrt c env fail s = Except.error (s2, e1 ++ e2) := by
        unfold accelTrt; simp only [hu, hd]
      rw [hacc] at h
      exact absurd h (by simp)
    · obtain ⟨hu2, hk2, hsf2, hl2, hfu2, hp2, hsim2⟩ :=
        trtVaeDecStep_ok_inv c env fail s1 _ _ hd
      rcases he : trtVaeEncStep c env fail s2 with ⟨s3, e3⟩ | ⟨s3, e3⟩
      · have hacc : accelTrt c env fail s = Except.error (s3, e1 ++ e2 ++ e3) := by
          unfold accelTrt; simp only [hu, hd, he]
        rw [hacc] at h
        exact absurd h (by simp)
      · have hs3 : s3 = s2 := trtVaeEncStep_ok_inv c env fail s2 _ _ he
        have hacc : accelTrt c env fail s = trtSwap c fail s3 (e1 ++ e2 ++ e3) := by
          unfold accelTrt; simp only [hu, hd, he]
        rw [hacc] at h
        obtain ⟨hs', _⟩ := trtSwap_ok_inv c fail s3 _ _ _ h
        rw [hs', hs3]
        rw [hs1] at hk2 hfu2 hl2 hp2 hsim2 hsf2 hu2
        exact ⟨hfu2, hl2, hp2, hsim2, hsf2, rfl, rfl⟩

/-- Inversion of the whole `try` body, error case: the bookkeeping flags
and the VAE module kind survive every failure; the unet module survives
unless the failure is the VAE engine constructor under TensorRT. -/
theorem accelTry_error_inv (c : Config) (env : Env) (fail : Option FailPoint)
    (s s' : Stream) (e' : List Ev)
    (h : accelTry c env fail s = Except.error (s', e')) :
    s'.vae.kind = s.vae.kind ∧ s'.loraFused = s.loraFused ∧
    s'.loraLoaded = s.loraLoaded ∧ s'.prepared = s.prepared ∧
    s'.simFilter = s.simFilter ∧ s'.sfastOn = s.sfastOn ∧
    (fail = some FailPoint.fpVaeEngine → s'.unet = UnetMod.engine (unetPath c)) ∧
    (fail ≠ some FailPoint.fpVaeEngine → s'.unet = s.unet) := by
  unfold accelTry at h
  split at h
  · split at h
    next hf =>
      cases h
      refine ⟨rfl, rfl, rfl, rfl, rfl, rfl, ?_, fun _ => rfl⟩
      intro hv
      rw [hf] at hv
      simp at hv
    next hf => exact absurd h (by simp)
  · split at h
    · exact accelTrt_error_inv c env fail s s' e' h
    · split at h
      · split at h
        next hf =>
          cases h
          refine ⟨rfl, rfl, rfl, rfl, rfl, rfl, ?_, fun _ => rfl⟩
          intro hv
          rw [hf] at hv
          simp at hv
        next hf => exact absurd h (by simp)
      · exact absurd h (by simp)

/-- Inversion of the whole `try` body, success case: the LoRA flags, the
`prepared` flag and the similar-image-filter flag are untouched. -/
theorem accelTry_ok_inv (c : Config) (env : Env) (fail : Option FailPoint)
    (s s' : Stream) (e' : List Ev)
    (h : accelTry c env fail s = Except.ok (s', e')) :
    s'.loraFused = s.loraFused ∧ s'.loraLoaded = s.loraLoaded ∧
    s'.prepared = s.prepared ∧ s'.simFilter = s.simFilter := by
  unfold accelTry at h
  split at h
  · split at h
    · exact absurd h (by simp)
    · cases h
      exact ⟨rfl, rfl, rfl, rfl⟩
  · split at h
    · obtain ⟨h1, h2, h3, h4, _⟩ := accelTrt_ok_inv c env fail s s' e' h
      exact ⟨h1, h2, h3, h4⟩
    · split at h
      · split at h
        · exact absurd h (by simp)
        · cases h
          exact ⟨rfl, rfl, rfl, rfl⟩
      · cases h
        exact ⟨rfl, rfl, rfl, rfl⟩

/-- The catch block preserves the stream of either outcome, so the LoRA
bookkeeping, `prepared` and `simFilter` all survive the acceleration
block. -/
theorem accelBlock_flags (c : Config) (env : Env) (fail : Option FailPoint)
    (s : Stream) :
    (accelBlock c env fail s).1.loraFused = s.loraFused ∧
    (accelBlock c env fail s).1.loraLoaded = s.loraLoaded ∧
    (accelBlock c env fail s).1.prepared = s.prepared ∧
    (accelBlock c env fail s).1.simFilter = s.simFilter := by
  unfold accelBlock
  rcases ht : accelTry c env fail s with ⟨s1, evs⟩ | ⟨s1, evs⟩
  · obtain ⟨h1, h2, h3, h4, h5, h6, _, _⟩ := accelTry_error_inv c env fail s _ _ ht
    exact ⟨h2, h3, h4, h5⟩
  · obtain ⟨h1, h2, h3, h4⟩ := accelTry_ok_inv c env fail s _ _ ht
    exact ⟨h1, h2, h3, h4⟩

/-- Computation rule for the catch block on a caught exception. -/
theorem accelBlock_of_error (c : Config) (env : Env) (fail : Option FailPoint)
    (s s1 : Stream) (evs : List Ev)
    (h : accelTry c env fail s = Except.error (s1, evs)) :
    accelBlock c env fail s = (s1, evs ++ [Ev.printExc, Ev.printFallback]) := by
  unfold accelBlock
  simp only [h]

/-- Computation rule for the catch block on success. -/
theorem accelBlock_of_ok (c : Config) (env : Env) (fail : Option FailPoint)
    (s s1 : Stream) (evs : List Ev)
    (h : accelTry c env fail s = Except.ok (s1, evs)) :
    accelBlock c env fail s = (s1, evs) := by
  unfold accelBlock
  simp only [h]

/-- Every event of the unet compilation step is an acceleration event. -/
theorem trtUnetStep_evs (c : Config) (env : Env) (fail : Option FailPoint)
    (s : Stream) :
    ∀ e ∈ resEvs (trtUnetStep c env fail s), isAccelEv e = true := by
  unfold trtUnetStep
  split
  · intro e he
    simp [resEvs] at he
  · split
    · intro e he
      simp [resEvs] at he
      rw [he]; rfl
    · intro e he
      simp [resEvs] at he
      rcases he with he | he <;> (rw [he]; rfl)

/-- Every event of the decoder compilation step is an acceleration event. -/
theorem trtVaeDecStep_evs (c : Config) (env : Env) (fail : Option FailPoint)
    (s : Stream) :
    ∀ e ∈ resEvs (trtVaeDecStep c env fail s), isAccelEv e = true := by
  unfold trtVaeDecStep
  split
  · intro e he
    simp [resEvs] at he
  · split
    · intro e he
      simp [resEvs] at he
      rw [he]; rfl
    · intro e he
      simp [resEvs] at he
      rcases he with he | he <;> (rw [he]; rfl)

/-- Every event of the encoder compilation step is an acceleration event. -/
theorem trtVaeEncStep_evs (c : Config) (env : Env) (fail : Option FailPoint)
    (s : Stream) :
    ∀ e ∈ resEvs (trtVaeEncStep c env fail s), isAccelEv e = true := by
  unfold trtVaeEncStep
  split
  · intro e he
    simp [resEvs] at he
  · split
    · intro e he
      simp [resEvs] at he
      rw [he]; rfl
    · intro e he
      simp [resEvs] at he
      rcases he with he | he <;> (rw [he]; rfl)

/-- Every event of the engine-swap tail is an acceleration event, given
that the accumulated events are. -/
theorem trtSwap_evs (c : Config) (fail : Option FailPoint) (s : Stream)
    (evs : List Ev) (hevs : ∀ e ∈ evs, isAccelEv e = true) :
    ∀ e ∈ resEvs (trtSwap c fail s evs), isAccelEv e = true := by
  unfold trtSwap
  split
  · intro e he
    simp only [resEvs] at he
    exact hevs e he
  · split
    · intro e he
      simp only [resEvs] at he
      exact hevs e he
    · split
      · intro e he
        simp only [resEvs] at he
        exact hevs e he
      · intro e he
        simp only [resEvs, List.mem_append] at he
        rcases he with he | he
        · exact hevs e he
        · simp at he
          rw [he]; rfl

/-- Every event of the TensorRT branch is an acceleration event. -/
theorem accelTrt_evs (c : Config) (env : Env) (fail : Option FailPoint)
    (s : Stream) :
    ∀ e ∈ resEvs (accelTrt c env fail s), isAccelEv e = true := by
  have h1 := trtUnetStep_evs c env fail s
  rcases hu : trtUnetStep c env fail s with ⟨s1, e1⟩ | ⟨s1, e1⟩
  · rw [hu] at h1
    have hacc : accelTrt c env fail s = Except.error (s1, e1) := by
      unfold accelTrt; simp only [hu]
    rw [hacc]
    exact h1
  · rw [hu] at h1
    have h2 := trtVaeDecStep_evs c env fail s1
    rcases hd : trtVaeDecStep c env fail s1 with ⟨s2, e2⟩ | ⟨s2, e2⟩
    · rw [hd] at h2
      have hacc : accelTrt c env fail s = Except.error (s2, e1 ++ e2) := by
        unfold accelTrt; simp only [hu, hd]
      rw [hacc]
      intro e he
      simp only [resEvs, List.mem_append] at he
      rcases he with he | he
      · exact h1 e he
      · exact h2 e he
    · rw [hd] at h2
      have h3 := trtVaeEncStep_evs c env fail s2
      rcases he2 : trtVaeEncStep c env fail s2 with ⟨s3, e3⟩ | ⟨s3, e3⟩
      · rw [he2] at h3
        have hacc : accelTrt c env fail s = Except.error (s3, e1 ++ e2 ++ e3) := by
          unfold accelTrt; simp only [hu, hd, he2]
        rw [hacc]
        intro e he
        simp only [resEvs, List.mem_append] at he
        rcases he with (he | he) | he
        · exact h1 e he
        · exact h2 e he
        · exact h3 e he
      · rw [he2] at h3
        have hacc : accelTrt c env fail s = trtSwap c fail s3 (e1 ++ e2 ++ e3) := by
          unfold accelTrt; simp only [hu, hd, he2]
        rw [hacc]
        refine trtSwap_evs c fail s3 _ ?_
        intro e he
        simp only [List.mem_append] at he
        rcases he with (he | he) | he
        · exact h1 e he
        · exact h2 e he
        · exact h3 e he

/-- Every event of the `try` body is an acceleration event. -/
theorem accelTry_evs (c : Config) (env : Env) (fail : Option FailPoint)
    (s : Stream) :
    ∀ e ∈ resEvs (accelTry c env fail s), isAccelEv e = true := by
  unfold accelTry
  split
  · split
    · intro e he
      simp [resEvs] at he
    · intro e he
      simp [resEvs] at he
      rw [he]; rfl
  · split
    · exact accelTrt_evs c env fail s
    · split
      · split
        · intro e he
          simp [resEvs] at he
        · intro e he
          simp [resEvs] at he
          rw [he]; rfl
      · intro e he
        simp [resEvs] at he

/-- Every event of the whole acceleration block (the printed fallback
messages included) is an acceleration event. -/
theorem accelBlock_evs (c : Config) (env : Env) (fail : Option FailPoint)
    (s : Stream) :
    ∀ e ∈ (accelBlock c env fail s).2, isAccelEv e = true := by
  have ht := accelTry_evs c env fail s
  rcases h : accelTry c env fail s with ⟨s1, evs⟩ | ⟨s1, evs⟩
  · rw [h] at ht
    rw [accelBlock_of_error c env fail s s1 evs h]
    intro e he
    simp only [List.mem_append] at he
    rcases he with he | he
    · exact ht e he
    · simp at he
      rcases he with he | he <;> (rw [he]; rfl)
  · rw [h] at ht
    rw [accelBlock_of_ok c env fail s s1 evs h]
    exact ht

/-- C1: every exception raised during acceleration setup inside
`_load_model` — under any acceleration mode and at any of the fail points
(xformers enabling, the three TensorRT compilations, CUDA stream creation,
either engine constructor, or stable-fast acceleration) — is caught:
`stream.prepare` is always called and the stream returned, and whenever
the `try` body raised, the traceback and the fallback message are printed
and execution continues with the partially accelerated stream. -/
theorem c1_acceleration_failures_caught (c : Config) (env : Env)
    (fail : Option FailPoint) :
    Ev.prepareCall ∈ (loadModel c env fail).2 ∧
    (loadModel c env fail).1.prepared = true ∧
    (∀ s1 evs, accelTry c env fail (preAccel c) = Except.error (s1, evs) →
      Ev.printExc ∈ (loadModel c env fail).2 ∧
      Ev.printFallback ∈ (loadModel c env fail).2 ∧
      (loadModel c env fail).1 = { s1 with prepared := true }) := by
  refine ⟨?_, rfl, ?_⟩
  · rw [loadModel_eq]
    simp
  · intro s1 evs h
    have hb := accelBlock_of_error c env fail (preAccel c) s1 evs h
    rw [loadModel_eq, hb]
    refine ⟨?_, ?_, rfl⟩ <;> simp

/-- Witness for C1: concrete configuration whose stable-fast acceleration
raises; the theorem's hypothesis is discharged by evaluation. -/
theorem c1_witness :
    accelTry cfgSfast envW (some FailPoint.fpSfast) (preAccel cfgSfast) =
      Except.error (preAccel cfgSfast, []) ∧
    Ev.printExc ∈ (loadModel cfgSfast envW (some FailPoint.fpSfast)).2 ∧
    Ev.printFallback ∈ (loadModel cfgSfast envW (some FailPoint.fpSfast)).2 ∧
    Ev.prepareCall ∈ (loadModel cfgSfast envW (some FailPoint.fpSfast)).2 := by
  have he : accelTry cfgSfast envW (some FailPoint.fpSfast) (preAccel cfgSfast) =
      Except.error (preAccel cfgSfast, []) := rfl
  obtain ⟨hp, _, himp⟩ :=
    c1_acceleration_failures_caught cfgSfast envW (some FailPoint.fpSfast)
  obtain ⟨h1, h2, _⟩ := himp _ _ he
  exact ⟨he, h1, h2, hp⟩

/-- C4: construction performs its steps in exactly the order pipeline
build, LCM-LoRA fusion, tiny-VAE swap, acceleration, `stream.prepare`:
the execution trace decomposes as the build event, then LoRA events only,
then tiny-VAE events only, then acceleration events only, then the
prepare call. -/
theorem c4_construction_order (c : Config) (env : Env) (fail : Option FailPoint) :
    ∃ eL eV eA,
      (loadModel c env fail).2 =
        Ev.buildPipe (c.model_id.endsWith (".safetensors")) ::
          (eL ++ eV ++ eA ++ [Ev.prepareCall]) ∧
      (∀ e ∈ eL, e = Ev.loadLora c.lcm_lora_id ∨ e = Ev.fuseLora) ∧
      (∀ e ∈ eV, ∃ v, e = Ev.swapTinyVae v) ∧
      (∀ e ∈ eA, isAccelEv e = true) := by
  refine ⟨(loraStage c initStream).2, (vaeStage c (loraStage c initStream).1).2,
    (accelBlock c env fail (preAccel c)).2, ?_, ?_, ?_, ?_⟩
  · rw [loadModel_eq]
  · intro e he
    rcases loraStage_evs c initStream with hl | hl <;> rw [hl] at he
    · simp at he
    · simp at he
      exact he
  · intro e he
    rcases vaeStage_evs c (loraStage c initStream).1 with hv | ⟨v, hv⟩ <;> rw [hv] at he
    · simp at he
    · simp at he
      exact ⟨v, he⟩
  · exact accelBlock_evs c env fail (preAccel c)

/-- Witness for C4 at a concrete configuration. -/
theorem c4_witness :
    ∃ eL eV eA,
      (loadModel cfgBase envW none).2 =
        Ev.buildPipe (cfgBase.model_id.endsWith (".safetensors")) ::
          (eL ++ eV ++ eA ++ [Ev.prepareCall]) := by
  obtain ⟨eL, eV, eA, h, _⟩ := c4_construction_order cfgBase envW none
  exact ⟨eL, eV, eA, h⟩

/-- C5: `batch_size` equals `len(t_index_list) * frame_buffer_size` after
construction, none of the wrapper's operations changes it, and a txt2img
call with `frame_buffer_size > 1` requests exactly `batch_size` from the
stream's batch call. -/
theorem c5_batch_size_bookkeeping (c : Config) (env : Env) (fail : Option FailPoint)
    (i : Option ImgInput) (p : String) (n : Nat) :
    (mkWrapper c env fail).1.batch_size = c.t_index_list.length * c.frame_buffer_size ∧
    (wCall (mkWrapper c env fail).1 env i).2.1.batch_size =
      (mkWrapper c env fail).1.batch_size ∧
    (wTxt2img (mkWrapper c env fail).1 env).2.1.batch_size =
      (mkWrapper c env fail).1.batch_size ∧
    (wImg2img (mkWrapper c env fail).1 env i).2.1.batch_size =
      (mkWrapper c env fail).1.batch_size ∧
    (wPrepare (mkWrapper c env fail).1 p n).1.batch_size =
      (mkWrapper c env fail).1.batch_size ∧
    (1 < c.frame_buffer_size →
      WEv.txtBatch ((mkWrapper c env fail).1.batch_size) ∈
        (wTxt2img (mkWrapper c env fail).1 env).2.2) := by
  refine ⟨rfl, ?_, ?_, rfl, rfl, ?_⟩
  · unfold wCall
    split
    · rfl
    · unfold wTxt2img
      split <;> rfl
  · unfold wTxt2img
    split <;> rfl
  · intro h
    have hc : (mkWrapper c env fail).1.frame_buffer_size > 1 := h
    unfold wTxt2img
    rw [if_pos hc]
    simp

/-- Witness for C5 at a concrete two-frame configuration. -/
theorem c5_witness :
    1 < cfgFb2.frame_buffer_size ∧
    (mkWrapper cfgFb2 envW none).1.batch_size =
      cfgFb2.t_index_list.length * cfgFb2.frame_buffer_size ∧
    WEv.txtBatch ((mkWrapper cfgFb2 envW none).1.batch_size) ∈
      (wTxt2img (mkWrapper cfgFb2 envW none).1 envW).2.2 := by
  have h := c5_batch_size_bookkeeping cfgFb2 envW none none ("") 0
  exact ⟨by decide, h.1, h.2.2.2.2.2 (by decide)⟩

/-- The LoRA-fused flag just before the `try` block, as a function of the
configuration. -/
theorem preAccel_loraFused (c : Config) :
    (preAccel c).loraFused =
      (c.use_lcm_lora && !(occursIn (("turbo").data) c.model_id.data)) := by
  unfold preAccel
  rw [(vaeStage_frame c (loraStage c initStream).1).2.1]
  unfold loraStage
  split
  next ht => simp [initStream, ht]
  next ht =>
    rw [Bool.not_eq_true] at ht
    split
    next hu => simp [hu, ht]
    next hu =>
      rw [Bool.not_eq_true] at hu
      simp [initStream, hu, ht]

/-- The recorded `load_lcm_lora` argument just before the `try` block. -/
theorem preAccel_loraLoaded (c : Config) :
    (preAccel c).loraLoaded =
      (if c.use_lcm_lora && !(occursIn (("turbo").data) c.model_id.data)
       then some c.lcm_lora_id else none) := by
  unfold preAccel
  rw [(vaeStage_frame c (loraStage c initStream).1).2.2.1]
  unfold loraStage
  split
  next ht => simp [initStream, ht]
  next ht =>
    rw [Bool.not_eq_true] at ht
    split
    next hu => simp [hu, ht]
    next hu =>
      rw [Bool.not_eq_true] at hu
      simp [initStream, hu, ht]

/-- C8: the LCM-LoRA adapter is loaded and fused if and only if
`use_lcm_lora` is set and the substring "turbo" does not occur in
`model_id`; when it is fused, the load used exactly the configured
`lcm_lora_id` argument (the library default standing in when it is
`None`).  In particular any "turbo" model id skips fusion even with an
explicit `lcm_lora_id`. -/
theorem c8_lora_fused_iff (c : Config) (env : Env) (fail : Option FailPoint) :
    ((loadModel c env fail).1.loraFused = true ↔
      (c.use_lcm_lora = true ∧ occursIn (("turbo").data) c.model_id.data = false)) ∧
    ((loadModel c env fail).1.loraFused = true →
      (loadModel c env fail).1.loraLoaded = some c.lcm_lora_id) := by
  have hf : (loadModel c env fail).1.loraFused = (preAccel c).loraFused := by
    rw [loadModel_eq]
    exact (accelBlock_flags c env fail (preAccel c)).1
  have hl : (loadModel c env fail).1.loraLoaded = (preAccel c).loraLoaded := by
    rw [loadModel_eq]
    exact (accelBlock_flags c env fail (preAccel c)).2.1
  rw [hf, hl, preAccel_loraFused, preAccel_loraLoaded]
  constructor
  · cases hu : c.use_lcm_lora <;> cases ht : occursIn (("turbo").data) c.model_id.data <;>
      simp
  · intro h
    rw [if_pos h]

/-- Witness for C8's implication at a concrete fused configuration. -/
theorem c8_witness :
    (loadModel cfgBase envW none).1.loraFused = true ∧
    (loadModel cfgBase envW none).1.loraLoaded = some cfgBase.lcm_lora_id ∧
    (loadModel cfgTurbo envW none).1.loraFused = false := by
  obtain ⟨hiff, himp⟩ := c8_lora_fused_iff cfgBase envW none
  have hfused : (loadModel cfgBase envW none).1.loraFused = true :=
    hiff.mpr ⟨rfl, by decide⟩
  refine ⟨hfused, himp hfused, ?_⟩
  obtain ⟨hiff2, _⟩ := c8_lora_fused_iff cfgTurbo envW none
  cases hft : (loadModel cfgTurbo envW none).1.loraFused
  · rfl
  · obtain ⟨_, hocc⟩ := hiff2.mp hft
    exact absurd hocc (by decide)

/-- C9: in `img2img`, a path or PIL argument is converted to RGB, resized
to exactly `(width, height)`, run through the stream's image processor and
moved to `self.device` with `self.dtype` before reaching the stream; a
tensor argument bypasses `preprocess_image` entirely and is handed to the
stream unchanged. -/
theorem c9_img2img_preprocessing (w : Wrapper) (env : Env) :
    (∀ t : Tensor,
      (wImg2img w env (some (ImgInput.tensor t))).2.2 = [WEv.streamRun (some t)]) ∧
    (∀ s : String, ∃ p : PILImage,
      p.mode = ("RGB") ∧ p.width = w.width ∧ p.height = w.height ∧
      (wImg2img w env (some (ImgInput.path s))).2.2 =
        [WEv.streamRun
          (some (tensorTo (env.processorPre p w.height w.width) w.device w.dtype))]) ∧
    (∀ q : PILImage, ∃ p : PILImage,
      p.mode = ("RGB") ∧ p.width = w.width ∧ p.height = w.height ∧ p.data = q.data ∧
      (wImg2img w env (some (ImgInput.pil q))).2.2 =
        [WEv.streamRun
          (some (tensorTo (env.processorPre p w.height w.width) w.device w.dtype))]) := by
  refine ⟨fun t => rfl, fun s => ?_, fun q => ?_⟩
  · exact ⟨resizeImg w.width w.height (convertImg (("RGB"))
      (resizeImg w.width w.height (convertImg (("RGB")) (env.openImage s)))),
      rfl, rfl, rfl, rfl⟩
  · exact ⟨resizeImg w.width w.height (convertImg (("RGB")) q),
      rfl, rfl, rfl, rfl, rfl⟩

/-- C2 (failing evaluation): in img2img mode the call interface returns a
tuple `(image, skip_prob)`, not a bare image — contradicting the declared
`-> Union[Image.Image, List[Image.Image]]` return type and the docstring.
Evaluated at a concrete wrapper with `frame_buffer_size = 1`. -/
theorem c2_call_returns_tuple :
    (wCall (mkWrapper cfgBase envW none).1 envW (some (ImgInput.tensor tW))).1 =
      PyVal.tup (PyVal.img pilW) 0 ∧
    (mkWrapper cfgBase envW none).1.frame_buffer_size = 1 ∧
    (mkWrapper cfgBase envW none).1.mode = Mode.img2img := by
  exact ⟨by decide, rfl, rfl⟩

/-- C3 counterexample: with TensorRT acceleration, nothing cached, and the
exception firing inside the VAE engine constructor, the except branch is
taken but `stream.unet` has already been replaced by the TensorRT engine —
it is not the unaccelerated torch module it was before the `try` block. -/
theorem c3_counterexample :
    (preAccel cfgTrt).unet = UnetMod.torch ∧
    (loadModel cfgTrt envW (some FailPoint.fpVaeEngine)).1.unet =
      UnetMod.engine (unetPath cfgTrt) ∧
    UnetMod.engine (unetPath cfgTrt) ≠ UnetMod.torch := by
  refine ⟨rfl, rfl, by simp⟩

/-- C3 amended: when acceleration setup fails, the returned stream's VAE
module is never replaced (its kind matches the pre-try state) and the unet
module is also unchanged — except when the exception fired inside the VAE
engine constructor, which runs after the unet engine swap, in which case
the returned stream keeps the already swapped TensorRT unet engine. -/
theorem c3_amended_fallback_state (c : Config) (env : Env) (fail : Option FailPoint)
    (s1 : Stream) (evs : List Ev)
    (h : accelTry c env fail (preAccel c) = Except.error (s1, evs)) :
    (loadModel c env fail).1.unet = s1.unet ∧
    (loadModel c env fail).1.vae = s1.vae ∧
    s1.vae.kind = (preAccel c).vae.kind ∧
    (fail ≠ some FailPoint.fpVaeEngine → s1.unet = (preAccel c).unet) ∧
    (fail = some FailPoint.fpVaeEngine → s1.unet = UnetMod.engine (unetPath c)) := by
  have hb := accelBlock_of_error c env fail (preAccel c) s1 evs h
  obtain ⟨hk, _, _, _, _, _, himp1, himp2⟩ :=
    accelTry_error_inv c env fail (preAccel c) _ _ h
  refine ⟨?_, ?_, hk, himp2, himp1⟩ <;> rw [loadModel_eq, hb]

/-- Witness for C3's amended claim: a failure during the unet compilation
leaves both modules untouched. -/
theorem c3_amended_witness :
    accelTry cfgTrt envW (some FailPoint.fpCompUnet) (preAccel cfgTrt) =
      Except.error (preAccel cfgTrt, [Ev.mkdirs (unetDir cfgTrt)]) ∧
    (loadModel cfgTrt envW (some FailPoint.fpCompUnet)).1.unet =
      (preAccel cfgTrt).unet ∧
    (loadModel cfgTrt envW (some FailPoint.fpCompUnet)).1.vae =
      (preAccel cfgTrt).vae := by
  have he : accelTry cfgTrt envW (some FailPoint.fpCompUnet) (preAccel cfgTrt) =
      Except.error (preAccel cfgTrt, [Ev.mkdirs (unetDir cfgTrt)]) := rfl
  obtain ⟨h1, h2, _⟩ :=
    c3_amended_fallback_state cfgTrt envW (some FailPoint.fpCompUnet) _ _ he
  exact ⟨he, h1, h2⟩

/-- C7: engine paths are deterministic functions of the configuration
(model id, the two feature flags, the mode and the batch size determine
them), the unet path uses `batch_size` for both the max and min batch
fields, the VAE paths use `batch_size` in txt2img mode and `1` in img2img
mode, and the prefix puts the `use_tiny_vae` flag after the `lcm_lora-`
label and the `use_lcm_lora` flag after the `tiny_vae-` label. -/
theorem c7_engine_path_construction (c c' : Config)
    (h1 : c.model_id = c'.model_id) (h2 : c.use_tiny_vae = c'.use_tiny_vae)
    (h3 : c.use_lcm_lora = c'.use_lcm_lora) (h4 : c.mode = c'.mode)
    (h5 : c.t_index_list.length = c'.t_index_list.length)
    (h6 : c.frame_buffer_size = c'.frame_buffer_size) :
    (unetPath c = unetPath c' ∧ vaeEncPath c = vaeEncPath c' ∧
      vaeDecPath c = vaeDecPath c') ∧
    unetPath c = engineDir ++ ("/") ++
      createPre c.model_id c.use_tiny_vae c.use_lcm_lora c.mode
        c.batchSize c.batchSize ++ ("/unet.engine") ∧
    (c.mode = Mode.txt2img →
      vaeEncPath c = engineDir ++ ("/") ++
        createPre c.model_id c.use_tiny_vae c.use_lcm_lora c.mode
          c.batchSize c.batchSize ++ ("/vae_encoder.engine") ∧
      vaeDecPath c = engineDir ++ ("/") ++
        createPre c.model_id c.use_tiny_vae c.use_lcm_lora c.mode
          c.batchSize c.batchSize ++ ("/vae_decoder.engine")) ∧
    (c.mode = Mode.img2img →
      vaeEncPath c = engineDir ++ ("/") ++
        createPre c.model_id c.use_tiny_vae c.use_lcm_lora c.mode 1 1 ++
        ("/vae_encoder.engine") ∧
      vaeDecPath c = engineDir ++ ("/") ++
        createPre c.model_id c.use_tiny_vae c.use_lcm_lora c.mode 1 1 ++
        ("/vae_decoder.engine")) := by
  have hb : c.batchSize = c'.batchSize := by
    unfold Config.batchSize
    rw [h5, h6]
  have hvb : vaeBatch c = vaeBatch c' := by
    unfold vaeBatch
    rw [h4, hb]
  refine ⟨⟨?_, ?_, ?_⟩, rfl, ?_, ?_⟩
  · unfold unetPath unetDir
    rw [h1, h2, h3, h4, hb]
  · unfold vaeEncPath vaeDir
    rw [h1, h2, h3, h4, hvb]
  · unfold vaeDecPath vaeDir
    rw [h1, h2, h3, h4, hvb]
  · intro hm
    unfold vaeEncPath vaeDecPath vaeDir vaeBatch
    rw [hm]
    simp
  · intro hm
    unfold vaeEncPath vaeDecPath vaeDir vaeBatch
    rw [hm]
    simp

/-- Witness for C7: two configurations differing only in acceleration get
identical engine paths. -/
theorem c7_witness :
    unetPath cfgBase = unetPath cfgTrt ∧
    vaeEncPath cfgBase = vaeEncPath cfgTrt ∧
    vaeDecPath cfgBase = vaeDecPath cfgTrt := by
  have h := c7_engine_path_construction cfgBase cfgTrt rfl rfl rfl rfl rfl rfl
  exact h.1

/-- Under the tensorrt literal the `try` body is the TensorRT branch. -/
theorem accelTry_trt (c : Config) (env : Env) (fail : Option FailPoint)
    (s : Stream) (hacc : c.acceleration = Accel.tensorrt) :
    accelTry c env fail s = accelTrt c env fail s := by
  unfold accelTry
  rw [hacc]
  simp

/-- Full evaluation of the TensorRT branch with no exception: each of the
three artifacts is compiled (mkdir then compile) exactly when its engine
file does not exist, and both modules are swapped for engines loaded from
the computed paths. -/
theorem accelTrt_none_eq (c : Config) (env : Env) (s : Stream) :
    accelTrt c env none s = Except.ok
      ({ s with unet := UnetMod.engine (unetPath c),
                vae := { kind := VaeKind.engine (vaeEncPath c) (vaeDecPath c),
                         fwdPatched :=
                           if env.fs (vaeDecPath c) then s.vae.fwdPatched else false } },
        ((if env.fs (unetPath c) then []
          else [Ev.mkdirs (unetDir c), Ev.compUnet (unetPath c)]) ++
         (if env.fs (vaeDecPath c) then []
          else [Ev.mkdirs (vaeDir c), Ev.compVaeDec (vaeDecPath c)]) ++
         (if env.fs (vaeEncPath c) then []
          else [Ev.mkdirs (vaeDir c), Ev.compVaeEnc (vaeEncPath c)]) ++
         [Ev.printTrtOn])) := by
  unfold accelTrt trtUnetStep trtVaeDecStep trtVaeEncStep trtSwap
  by_cases h1 : env.fs (unetPath c) <;> by_cases h2 : env.fs (vaeDecPath c) <;>
    by_cases h3 : env.fs (vaeEncPath c) <;>
      simp [h1, h2, h3]

/-- C6: under TensorRT acceleration (normal run), each of the three engine
artifacts is compiled if and only if its engine file is absent; when it is
compiled, the containing directory is created immediately before; and the
stream's modules are loaded from the (possibly cached) engine paths either
way. -/
theorem c6_trt_compile_cache (c : Config) (env : Env)
    (hacc : c.acceleration = Accel.tensorrt) :
    ((Ev.compUnet (unetPath c) ∈ (loadModel c env none).2) ↔
      env.fs (unetPath c) = false) ∧
    ((Ev.compVaeDec (vaeDecPath c) ∈ (loadModel c env none).2) ↔
      env.fs (vaeDecPath c) = false) ∧
    ((Ev.compVaeEnc (vaeEncPath c) ∈ (loadModel c env none).2) ↔
      env.fs (vaeEncPath c) = false) ∧
    (env.fs (unetPath c) = false → ∃ l1 l2, (loadModel c env none).2 =
      l1 ++ Ev.mkdirs (unetDir c) :: Ev.compUnet (unetPath c) :: l2) ∧
    (env.fs (vaeDecPath c) = false → ∃ l1 l2, (loadModel c env none).2 =
      l1 ++ Ev.mkdirs (vaeDir c) :: Ev.compVaeDec (vaeDecPath c) :: l2) ∧
    (env.fs (vaeEncPath c) = false → ∃ l1 l2, (loadModel c env none).2 =
      l1 ++ Ev.mkdirs (vaeDir c) :: Ev.compVaeEnc (vaeEncPath c) :: l2) ∧
    (loadModel c env none).1.unet = UnetMod.engine (unetPath c) ∧
    (loadModel c env none).1.vae.kind = VaeKind.engine (vaeEncPath c) (vaeDecPath c) := by
  have hok := (accelTry_trt c env none (preAccel c) hacc).trans
    (accelTrt_none_eq c env (preAccel c))
  have hb := accelBlock_of_ok c env none (preAccel c) _ _ hok
  refine ⟨?_, ?_, ?_, ?_, ?_, ?_, ?_, ?_⟩
  · rw [loadModel_eq, hb]
    constructor
    · intro hmem
      by_cases h1 : env.fs (unetPath c)
      · exfalso
        by_cases h2 : env.fs (vaeDecPath c) <;> by_cases h3 : env.fs (vaeEncPath c) <;>
          rcases loraStage_evs c initStream with hl | hl <;>
            rcases vaeStage_evs c (loraStage c initStream).1 with hv | ⟨v, hv⟩ <;>
              (rw [hl, hv] at hmem; simp [h1, h2, h3] at hmem)
      · simpa using h1
    · intro h1
      simp [h1]
  · rw [loadModel_eq, hb]
    constructor
    · intro hmem
      by_cases h2 : env.fs (vaeDecPath c)
      · exfalso
        by_cases h1 : env.fs (unetPath c) <;> by_cases h3 : env.fs (vaeEncPath c) <;>
          rcases loraStage_evs c initStream with hl | hl <;>
            rcases vaeStage_evs c (loraStage c initStream).1 with hv | ⟨v, hv⟩ <;>
              (rw [hl, hv] at hmem; simp [h1, h2, h3] at hmem)
      · simpa using h2
    · intro h2
      simp [h2]
  · rw [loadModel_eq, hb]
    constructor
    · intro hmem
      by_cases h3 : env.fs (vaeEncPath c)
      · exfalso
        by_cases h1 : env.fs (unetPath c) <;> by_cases h2 : env.fs (vaeDecPath c) <;>
          rcases loraStage_evs c initStream with hl | hl <;>
            rcases vaeStage_evs c (loraStage c initStream).1 with hv | ⟨v, hv⟩ <;>
              (rw [hl, hv] at hmem; simp [h1, h2, h3] at hmem)
      · simpa using h3
    · intro h3
      simp [h3]
  · intro h1
    rw [loadModel_eq, hb]
    refine ⟨Ev.buildPipe (c.model_id.endsWith (".safetensors")) ::
      ((loraStage c initStream).2 ++ (vaeStage c (loraStage c initStream).1).2),
      (if env.fs (vaeDecPath c) then []
       else [Ev.mkdirs (vaeDir c), Ev.compVaeDec (vaeDecPath c)]) ++
      (if env.fs (vaeEncPath c) then []
       else [Ev.mkdirs (vaeDir c), Ev.compVaeEnc (vaeEncPath c)]) ++
      [Ev.printTrtOn, Ev.prepareCall], ?_⟩
    simp [h1]
  · intro h2
    rw [loadModel_eq, hb]
    refine ⟨Ev.buildPipe (c.model_id.endsWith (".safetensors")) ::
      ((loraStage c initStream).2 ++ (vaeStage c (loraStage c initStream).1).2 ++
       (if env.fs (unetPath c) then []
        else [Ev.mkdirs (unetDir c), Ev.compUnet (unetPath c)])),
      (if env.fs (vaeEncPath c) then []
       else [Ev.mkdirs (vaeDir c), Ev.compVaeEnc (vaeEncPath c)]) ++
      [Ev.printTrtOn, Ev.prepareCall], ?_⟩
    simp [h2]
  · intro h3
    rw [loadModel_eq, hb]
    refine ⟨Ev.buildPipe (c.model_id.endsWith (".safetensors")) ::
      ((loraStage c initStream).2 ++ (vaeStage c (loraStage c initStream).1).2 ++
       (if env.fs (unetPath c) then []
        else [Ev.mkdirs (unetDir c), Ev.compUnet (unetPath c)]) ++
       (if env.fs (vaeDecPath c) then []
        else [Ev.mkdirs (vaeDir c), Ev.compVaeDec (vaeDecPath c)])),
      [Ev.printTrtOn, Ev.prepareCall], ?_⟩
    simp [h3]
  · rw [loadModel_eq, hb]
  · rw [loadModel_eq, hb]

/-- Witness for C6 at a concrete TensorRT configuration with an empty
filesystem. -/
theorem c6_witness :
    Ev.compUnet (unetPath cfgTrt) ∈ (loadModel cfgTrt envW none).2 ∧
    Ev.compVaeDec (vaeDecPath cfgTrt) ∈ (loadModel cfgTrt envW none).2 ∧
    (loadModel cfgTrt envW none).1.unet = UnetMod.engine (unetPath cfgTrt) := by
  have h := c6_trt_compile_cache cfgTrt envW rfl
  exact ⟨h.1.mpr rfl, h.2.1.mpr rfl, h.2.2.2.2.2.2.1⟩

end StreamWrap
